import Mathlib

/-!
Verification of the task/scheduling logic of `Agent_design_UI/main..py`
(class `PersonalPASystem`) and, for the task-id assignment, of
`Agent_design_UI/toolsnotadded.py` (class `TaskManagerTools`).

The CSV data rows of `tasks.csv` are modelled as a `List Task` (the header
row, which every Python routine skips, is not part of the model).  Date
strings in the `YYYY-MM-DD` format used throughout the program are modelled
as `Date` records; Python's lexicographic string comparison on two
zero-padded `YYYY-MM-DD` strings coincides with the componentwise order
`dateLe`, and `datetime.strptime` / `+ timedelta(days=1)` /
`strftime` corresponds to `nextDay` on the parsed date.  The vendor
CSV-SQL engine (`phi.tools.csv_tools.CsvTools.query_csv_file`), which is
third-party code outside this repository, is modelled by the standard SQL
meaning of the query strings the program builds, except in
`get_today_schedule`, where the engine is kept abstract as a function
`exec : String → String` so that the program's choice of which query string
it passes to the engine can be analysed.
-/

namespace PersonalPA

/-- A calendar date, the parsed form of a `YYYY-MM-DD` string. -/
structure Date where
  year : Nat
  month : Nat
  day : Nat
deriving DecidableEq

/-- Gregorian leap-year rule (as implemented by Python's `datetime`). -/
def isLeapYear (y : Nat) : Bool :=
  (y % 4 == 0 && y % 100 != 0) || (y % 400 == 0)

/-- Number of days in a month (as implemented by Python's `datetime`). -/
def daysInMonth (y m : Nat) : Nat :=
  if m == 2 then (if isLeapYear y then 29 else 28)
  else if m == 4 || m == 6 || m == 9 || m == 11 then 30
  else 31

/-- Computes `d + timedelta(days=1)` on a parsed date (main..py line 192). -/
def nextDay (d : Date) : Date :=
  if d.day < daysInMonth d.year d.month then ⟨d.year, d.month, d.day + 1⟩
  else if d.month < 12 then ⟨d.year, d.month + 1, 1⟩
  else ⟨d.year + 1, 1, 1⟩

/-- Date order; on zero-padded `YYYY-MM-DD` strings this is exactly the
Python string comparison `row[7] <= today` of main..py line 186. -/
def dateLe (a b : Date) : Bool :=
  if a.year < b.year then true
  else if b.year < a.year then false
  else if a.month < b.month then true
  else if b.month < a.month then false
  else decide (a.day ≤ b.day)

/-- One data row of `tasks.csv` (header written in `_initialize_csv_files`,
main..py lines 52-56): `task_id`, `title`, `description`, `category`,
`priority`, `status`, `created_date`, `due_date`, `rollover_count`,
`time_block`.  All columns hold strings in the file; `due_date` is modelled
as a parsed `Date` and `rollover_count` as the `Nat` the program obtains via
`int(row[8])`, while the columns the program never parses stay `String`. -/
structure Task where
  task_id : String
  title : String
  description : String
  category : String
  priority : String
  status : String
  created_date : String
  due_date : Date
  rollover_count : Nat
  time_block : String
deriving DecidableEq

/-- A placeholder record used only as the default of `List.getD`. -/
def blankTask : Task :=
  ⟨"", "", "", "", "", "", "", ⟨0, 0, 0⟩, 0, ""⟩

/-- The update applied to one migrated row (main..py lines 187-193):
`row[8] = str(int(row[8]) + 1)` and `row[7]` advanced by one day. -/
def migrateRow (t : Task) : Task :=
  { t with rollover_count := t.rollover_count + 1, due_date := nextDay t.due_date }

/-- The row scan of `migrate_incomplete_tasks` (main..py lines 184-195):
every row with `row[5] == 'pending' and row[7] <= today` is migrated and
counted, every other row is kept as it is. -/
def migrateRows (today : Date) : List Task → List Task × Nat
  | [] => ([], 0)
  | t :: rest =>
      let p := migrateRows today rest
      if t.status == "pending" && dateLe t.due_date today then
        (migrateRow t :: p.1, p.2 + 1)
      else (t :: p.1, p.2)

/-- Result of one run of `PersonalPASystem.migrate_incomplete_tasks`. -/
structure MigrateRun where
  /-- The task rows written back to `tasks.csv` (main..py lines 198-200). -/
  rows : List Task
  /-- The local `migrated_count`, printed at line 205 and handed to
  `_update_progress_log(migrated_tasks=migrated_count)` at line 203. -/
  migrated_count : Nat
  /-- The Python return value: the function is annotated `-> None`
  (main..py line 174) and its body ends at the `print` with no `return`
  statement, so the call returns `None`. -/
  retval : Option Nat
deriving DecidableEq

/-- One run of `PersonalPASystem.migrate_incomplete_tasks` (main..py lines
174-205) over the data rows of `tasks.csv`, with `today` the parsed
`datetime.now().strftime('%Y-%m-%d')`. -/
def migrate_incomplete_tasks (today : Date) (rows : List Task) : MigrateRun :=
  let p := migrateRows today rows
  { rows := p.1, migrated_count := p.2, retval := none }

/-- The per-row update of `update_task_status` (main..py lines 156-159):
`row[5] = new_status`, and `row[8] = '0'` when the new status is
`'completed'`. -/
def applyStatus (new_status : String) (t : Task) : Task :=
  let t1 := { t with status := new_status }
  if new_status == "completed" then { t1 with rollover_count := 0 } else t1

/-- The search loop of `update_task_status` (main..py lines 153-161): the
first row with `row[0] == str(task_id)` is updated and the loop breaks; the
Bool records the local `updated` flag. -/
def updateFirst (tidStr new_status : String) : List Task → List Task × Bool
  | [] => ([], false)
  | t :: rest =>
      if t.task_id == tidStr then (applyStatus new_status t :: rest, true)
      else
        let p := updateFirst tidStr new_status rest
        (t :: p.1, p.2)

/-- Model of `PersonalPASystem.update_task_status` (main..py lines 145-172): returns
the data rows of `tasks.csv` after the call together with the message the
call prints.  When no row matched, the function returns before the
write-back (lines 163-165), so the store is the unchanged input. -/
def update_task_status (task_id : Nat) (new_status : String)
    (rows : List Task) : List Task × String :=
  let p := updateFirst (toString task_id) new_status rows
  if p.2 then
    (p.1, "Task " ++ toString task_id ++ " status updated to \x27"
      ++ new_status ++ "\x27")
  else (rows, "Task with ID " ++ toString task_id ++ " not found.")

/-- Python's `str.isdigit` on the ASCII strings this program stores:
non-empty and all characters are digits (main..py line 129 guard
`row[0].isdigit()`). -/
def pyIsDigit (s : String) : Bool :=
  !s.data.isEmpty && s.data.all Char.isDigit

/-- Python's `int(...)` on a digit string. -/
def strToNat (s : String) : Nat :=
  s.data.foldl (fun n c => n * 10 + (c.toNat - 48)) 0

/-- The id computation of `PersonalPASystem.add_task` (main..py lines
122-132): when there is at least one data row, collect `int(row[0])` for the
rows whose `task_id` is a digit string and use `max + 1` (or `1` when no row
qualified); when the file holds only the header, use `1`. -/
def next_id (rows : List Task) : Nat :=
  if rows.isEmpty then 1
  else
    let task_ids := (rows.filter fun t => pyIsDigit t.task_id).map
      fun t => strToNat t.task_id
    if task_ids.isEmpty then 1 else (task_ids.foldl max 0) + 1

/-- Model of `PersonalPASystem.add_task` (main..py lines 119-143): appends one row
with the computed id, status `'pending'`, `rollover_count` `0`, and the
given fields (`created_date` is the formatted `datetime.now()`). -/
def add_task (rows : List Task) (title description category : String)
    (priority : Nat) (created_date : String) (due_date : Date)
    (time_block : String) : List Task :=
  rows ++ [⟨toString (next_id rows), title, description, category,
    toString priority, "pending", created_date, due_date, 0, time_block⟩]

/-- The id computation of `TaskManagerTools.add_task` (toolsnotadded.py
lines 47-50) over the `task_id` column of the pandas frame: `1` when the
frame is empty, otherwise `df['task_id'].max() + 1`. -/
def tm_next_id (ids : List Int) : Int :=
  if ids.isEmpty then 1 else (ids.foldl max (ids.headD 0)) + 1

/-- The two aggregate counts of the SQL query built in
`_update_progress_log` (main..py lines 212-217):
`COUNT(*) FILTER (WHERE status = s AND due_date = today)` over the task
rows, by the standard SQL meaning of the query. -/
def countStatusToday (s : String) (today : Date) (rows : List Task) : Nat :=
  (rows.filter fun t => t.status == s && decide (t.due_date = today)).length

/-- Round half to even, the convention of Python's builtin `round`. -/
def roundHalfEven (x : ℚ) : ℤ :=
  if Int.fract x < 1 / 2 then ⌊x⌋
  else if 1 / 2 < Int.fract x then ⌊x⌋ + 1
  else if ⌊x⌋ % 2 = 0 then ⌊x⌋ else ⌊x⌋ + 1

/-- Python's `round(x, 2)` (main..py line 229), with the float arithmetic
idealised as exact rational arithmetic. -/
def pythonRound2 (x : ℚ) : ℚ :=
  (roundHalfEven (x * 100) : ℚ) / 100

/-- The score of main..py lines 228-229:
`round((completed / total * 100) if total > 0 else 0, 2)`. -/
def productivity_score (completed pending : Nat) : ℚ :=
  if completed + pending > 0 then
    pythonRound2 ((completed : ℚ) / ((completed : ℚ) + (pending : ℚ)) * 100)
  else 0

/-- One data row of `progress.csv` (header written at main..py lines
74-77). -/
structure ProgressEntry where
  date : Date
  completed_tasks : Nat
  pending_tasks : Nat
  rolled_over_tasks : Nat
  productivity_score : ℚ
  notes : String
deriving DecidableEq

/-- A placeholder record used only as the default of `List.getD`. -/
def blankEntry : ProgressEntry :=
  ⟨⟨0, 0, 0⟩, 0, 0, 0, 0, ""⟩

/-- Model of `PersonalPASystem._update_progress_log` (main..py lines 207-237): the
two counts are taken over the current task rows, the score is computed, and
one row is appended to `progress.csv`.  (The guard `len(lines) >= 2` at
line 223 always holds for the well-formed header-plus-one-row result the
aggregate query produces.) -/
def update_progress_log (today : Date) (taskRows : List Task)
    (migrated_tasks : Nat) (log : List ProgressEntry) : List ProgressEntry :=
  let completed := countStatusToday "completed" today taskRows
  let pending := countStatusToday "pending" today taskRows
  log ++ [⟨today, completed, pending, migrated_tasks,
    productivity_score completed pending, ""⟩]

/-- Python's `s.strip().split('\n')` on a query result. -/
def splitLines (s : String) : List String :=
  s.trim.splitOn "\n"

/-- Python's `s.split(',')`. -/
def splitComma (s : String) : List String :=
  s.splitOn ","

/-- Access into the `dict(zip(headers, values))` a result row is turned
into (main..py line 260); absent keys are read as the empty string. -/
def lookupD (d : List (String × String)) (k : String) : String :=
  match d.lookup k with
  | some v => v
  | none => ""

/-- The outer query of `get_today_schedule` (main..py lines 244-249),
whitespace normalised. -/
def schedule_query (today_name : String) : String :=
  "SELECT block_id, start_time, end_time, block_name, block_type, task_ids "
    ++ "FROM schedule WHERE day = \x27" ++ today_name
    ++ "\x27 ORDER BY start_time"

/-- The per-block query built (but, see `processLine`, never executed) at
main..py lines 265-270, whitespace normalised. -/
def tasks_query (task_ids : List String) : String :=
  "SELECT task_id, title, priority, status FROM tasks WHERE task_id IN ("
    ++ String.intercalate "," task_ids ++ ") ORDER BY priority DESC"

/-- One block of the value `get_today_schedule` returns: the dict built
from the schedule row plus the `'tasks'` entry assigned into it. -/
structure ScheduleBlockOut where
  fields : List (String × String)
  tasks : List (List (String × String))
deriving DecidableEq

/-- The parsing of the per-block task result (main..py lines 273-280). -/
def parseTasks (tasks_result : String) : List (List (String × String)) :=
  match splitLines tasks_result with
  | [] => []
  | header :: rest =>
      if rest.isEmpty then []
      else rest.map fun line => (splitComma header).zip (splitComma line)

/-- The loop body of `get_today_schedule` (main..py lines 258-286) for one
schedule row, given the abstract query engine `exec`.  When the block's
`task_ids` entry is non-empty the code builds `tasks_query` but the call at
line 272 passes the outer `query`, so `exec` is applied to `query`; the
second component records the query strings this iteration hands to the
engine. -/
def processLine (exec : String → String) (query : String)
    (headers : List String) (line : String) :
    ScheduleBlockOut × List String :=
  let values := splitComma line
  let block := headers.zip values
  if lookupD block "task_ids" ≠ "" then
    let task_ids := (lookupD block "task_ids").splitOn ";"
    let _tq := tasks_query task_ids
    let tasks_result := exec query
    (⟨block, parseTasks tasks_result⟩, [query])
  else (⟨block, []⟩, [])

/-- Model of `PersonalPASystem.get_today_schedule` (main..py lines 239-288) with the
vendor query engine abstracted as `exec`: returns the schedule list the
function builds together with the list of every query string the run passes
to the engine. -/
def get_today_schedule (exec : String → String) (today_name : String) :
    List ScheduleBlockOut × List String :=
  let query := schedule_query today_name
  let schedule_result := exec query
  match splitLines schedule_result with
  | [] => ([], [query])
  | header :: rest =>
      if rest.isEmpty then ([], [query])
      else
        let headers := splitComma header
        let results := rest.map (processLine exec query headers)
        (results.map Prod.fst, query :: (results.map Prod.snd).flatten)

/-! ## Helper lemmas -/

/-- The task from the scenario of spec section 8: task 5, pending, due
2024-01-01, rollover count 2. -/
def sampleTask : Task :=
  ⟨"5", "Finish report", "draft", "work", "1", "pending", "2023-12-30",
    ⟨2024, 1, 1⟩, 2, "Core Learning Sessions"⟩

theorem migrateRows_eq (today : Date) (rows : List Task) :
    migrateRows today rows =
      (rows.map fun t =>
        if t.status == "pending" && dateLe t.due_date today then migrateRow t
        else t,
       (rows.filter fun t =>
         t.status == "pending" && dateLe t.due_date today).length) := by
  induction rows with
  | nil => rfl
  | cons t rest ih =>
      cases hb : (t.status == "pending" && dateLe t.due_date today) with
      | true =>
          have h' : t.status = "pending" ∧ dateLe t.due_date today = true := by
            simpa using hb
          simp only [migrateRows, ih, hb, if_true, List.filter_cons,
            List.map_cons]
          simp [h', hb]
      | false =>
          have hn : ¬ (t.status = "pending" ∧ dateLe t.due_date today = true) := by
            rintro ⟨ha, hb2⟩
            rw [ha, hb2] at hb
            simp at hb
          simp [migrateRows, ih, hb, hn, List.filter_cons]

theorem getD_map_lt {α : Type} (f : α → α) (d : α) (l : List α) (i : Nat)
    (hi : i < l.length) : (l.map f).getD i d = f (l.getD i d) := by
  induction l generalizing i with
  | nil => cases hi
  | cons a l ih =>
      cases i with
      | zero => rfl
      | succ n =>
          simp only [List.map_cons, List.getD_cons_succ]
          exact ih n (by simpa using hi)

/-! ## Claims -/

/-- Claim C1: For every task record with status `'pending'` and
`due_date <= today`, one run of `migrate_incomplete_tasks` advances its
due date by exactly one calendar day and increments its rollover count by
exactly one; every other record is unchanged, and no record is transformed
twice (each position of the store is rewritten exactly once, from its
original value). -/
theorem migrate_pending_overdue_step (today : Date) (rows : List Task)
    (i : Nat) (hi : i < rows.length) :
    (migrate_incomplete_tasks today rows).rows.length = rows.length ∧
    ((rows.getD i blankTask).status = "pending" ∧
        dateLe (rows.getD i blankTask).due_date today = true →
      (migrate_incomplete_tasks today rows).rows.getD i blankTask =
        { rows.getD i blankTask with
            due_date := nextDay (rows.getD i blankTask).due_date,
            rollover_count := (rows.getD i blankTask).rollover_count + 1 }) ∧
    (¬ ((rows.getD i blankTask).status = "pending" ∧
        dateLe (rows.getD i blankTask).due_date today = true) →
      (migrate_incomplete_tasks today rows).rows.getD i blankTask =
        rows.getD i blankTask) := by
  have hmap : (migrate_incomplete_tasks today rows).rows =
      rows.map fun t =>
        if t.status == "pending" && dateLe t.due_date today then migrateRow t
        else t := by
    simp [migrate_incomplete_tasks, migrateRows_eq]
  refine ⟨by rw [hmap]; exact List.length_map _ _, ?_, ?_⟩
  · intro ⟨h1, h2⟩
    rw [hmap, getD_map_lt _ _ _ _ hi,
      if_pos (by rw [Bool.and_eq_true, beq_iff_eq]; exact ⟨h1, h2⟩)]
    rfl
  · intro h
    rw [hmap, getD_map_lt _ _ _ _ hi,
      if_neg (by rw [Bool.and_eq_true, beq_iff_eq]; exact h)]

/-- Witness for C1, the scenario of spec section 8: `today = 2024-01-02`,
task 5 pending and due 2024-01-01 with rollover count 2 is moved to due
date 2024-01-02 with rollover count 3. -/
theorem migrate_pending_overdue_step_witness :
    0 < ([sampleTask] : List Task).length ∧
    sampleTask.status = "pending" ∧
    dateLe sampleTask.due_date ⟨2024, 1, 2⟩ = true ∧
    (migrate_incomplete_tasks ⟨2024, 1, 2⟩ [sampleTask]).rows.getD 0 blankTask =
      { sampleTask with due_date := ⟨2024, 1, 2⟩, rollover_count := 3 } := by
  refine ⟨by decide, by decide, by decide, ?_⟩
  have h :=
    (migrate_pending_overdue_step ⟨2024, 1, 2⟩ [sampleTask] 0 (by decide)).2.1
      ⟨by decide, by decide⟩
  rw [h]
  decide

/-- Claim C2, counterexample: The claim says the value returned by
`migrate_incomplete_tasks` equals the number of records that were pending
and due: on a store with exactly one such record the Python function still
returns `None` (its body has no `return` statement), not that number. -/
theorem migrate_retval_counterexample :
    (migrate_incomplete_tasks ⟨2024, 1, 2⟩ [sampleTask]).retval = none ∧
    ¬ (migrate_incomplete_tasks ⟨2024, 1, 2⟩ [sampleTask]).retval =
        some (([sampleTask].filter fun t =>
          t.status == "pending" && dateLe t.due_date ⟨2024, 1, 2⟩).length) := by
  exact ⟨rfl, by decide⟩

/-- Claim C2, amended: The rollover job does not return the migrated count
(it returns `None`); instead, the count it computes — printed at line 205
and recorded in the progress log — equals the number of records that
satisfied `status = 'pending'` and `due_date <= today` at the start of the
run. -/
theorem migrate_count_eq_matching (today : Date) (rows : List Task) :
    (migrate_incomplete_tasks today rows).migrated_count =
      (rows.filter fun t =>
        t.status == "pending" && dateLe t.due_date today).length := by
  simp [migrate_incomplete_tasks, migrateRows_eq]

theorem updateFirst_append (tidStr s : String) (pre post : List Task)
    (t : Task) (hpre : ∀ u ∈ pre, u.task_id ≠ tidStr)
    (ht : t.task_id = tidStr) :
    updateFirst tidStr s (pre ++ t :: post) =
      (pre ++ applyStatus s t :: post, true) := by
  induction pre with
  | nil => simp [updateFirst, ht]
  | cons a pre ih =>
      have ha : (a.task_id == tidStr) = false := by
        simp [hpre a (List.mem_cons_self a pre)]
      have ih2 := ih fun u hu => hpre u (List.mem_cons_of_mem a hu)
      simp [updateFirst, ha, ih2]

theorem updateFirst_no_match (tidStr s : String) (rows : List Task)
    (h : ∀ u ∈ rows, u.task_id ≠ tidStr) :
    updateFirst tidStr s rows = (rows, false) := by
  induction rows with
  | nil => rfl
  | cons a rest ih =>
      have ha : (a.task_id == tidStr) = false := by
        simp [h a (List.mem_cons_self a rest)]
      have ih2 := ih fun u hu => h u (List.mem_cons_of_mem a hu)
      simp [updateFirst, ha, ih2]

theorem applyStatus_eq (s : String) (t : Task) :
    applyStatus s t =
      { t with
          status := s,
          rollover_count := if s = "completed" then 0 else t.rollover_count } := by
  by_cases h : s = "completed" <;> simp [applyStatus, h]

/-- Claim C3: Updating a task's status to `'completed'` sets that record's
status field to `'completed'` and its rollover count to `0`, whatever the
prior rollover count was (the record `t`, and with it `t.rollover_count`,
is universally quantified). -/
theorem complete_resets_rollover (task_id : Nat) (pre post : List Task)
    (t : Task) (hpre : ∀ u ∈ pre, u.task_id ≠ toString task_id)
    (ht : t.task_id = toString task_id) :
    (update_task_status task_id "completed" (pre ++ t :: post)).1 =
      pre ++ { t with status := "completed", rollover_count := 0 } :: post := by
  have h := updateFirst_append (toString task_id) "completed" pre post t hpre ht
  simp [update_task_status, h, applyStatus_eq]

/-- Witness for C3: marking task 5 (rollover count 2) completed yields
status `'completed'` and rollover count `0`. -/
theorem complete_resets_rollover_witness :
    (∀ u ∈ ([] : List Task), u.task_id ≠ toString 5) ∧
    sampleTask.task_id = toString 5 ∧
    (update_task_status 5 "completed" ([] ++ sampleTask :: [])).1 =
      [] ++ { sampleTask with status := "completed", rollover_count := 0 } :: [] :=
  ⟨by simp, by decide, complete_resets_rollover 5 [] [] sampleTask (by simp) (by decide)⟩

/-- Claim C9: `update_task_status` rewrites only the first record whose
`task_id` matches: the records before it (none of which match) and every
record after it — including duplicates of the same id — are returned
unchanged, and the updated record differs from the original only in
`status` (and in `rollover_count` exactly when the new status is
`'completed'`). -/
theorem update_first_match_frame (task_id : Nat) (new_status : String)
    (pre post : List Task) (t : Task)
    (hpre : ∀ u ∈ pre, u.task_id ≠ toString task_id)
    (ht : t.task_id = toString task_id) :
    (update_task_status task_id new_status (pre ++ t :: post)).1 =
      pre ++
        { t with
            status := new_status,
            rollover_count :=
              if new_status = "completed" then 0 else t.rollover_count } ::
        post := by
  have h := updateFirst_append (toString task_id) new_status pre post t hpre ht
  simp [update_task_status, h, applyStatus_eq]

/-- Witness for C9: a store with two records of id `3`; only the first is
rewritten, the duplicate after it is untouched, and only the status field
of the first changes. -/
theorem update_first_match_frame_witness :
    (∀ u ∈ ([] : List Task), u.task_id ≠ toString 3) ∧
    ({ sampleTask with task_id := "3" } : Task).task_id = toString 3 ∧
    (update_task_status 3 "in_progress"
        ([] ++ { sampleTask with task_id := "3" } ::
          [{ sampleTask with task_id := "3", title := "dup" }])).1 =
      [] ++
        { sampleTask with
            task_id := "3",
            status := "in_progress",
            rollover_count :=
              if ("in_progress" : String) = "completed" then 0
              else sampleTask.rollover_count } ::
        [{ sampleTask with task_id := "3", title := "dup" }] := by
  refine ⟨by simp, by decide, ?_⟩
  have h := update_first_match_frame 3 "in_progress" []
    [{ sampleTask with task_id := "3", title := "dup" }]
    { sampleTask with task_id := "3" } (by simp) (by decide)
  exact h

/-- Claim C6: When no record matches the requested id, `update_task_status`
prints the not-found message and aborts before the write-back: the store
it leaves behind is exactly the input store. -/
theorem unknown_id_aborts (task_id : Nat) (new_status : String)
    (rows : List Task) (h : ∀ t ∈ rows, t.task_id ≠ toString task_id) :
    update_task_status task_id new_status rows =
      (rows, "Task with ID " ++ toString task_id ++ " not found.") := by
  simp [update_task_status, updateFirst_no_match _ _ rows h]

/-- Witness for C6: id 3 matches nothing in a store holding only task 5. -/
theorem unknown_id_aborts_witness :
    (∀ t ∈ [sampleTask], t.task_id ≠ toString 3) ∧
    update_task_status 3 "completed" [sampleTask] =
      ([sampleTask], "Task with ID " ++ toString 3 ++ " not found.") :=
  ⟨by decide, unknown_id_aborts 3 "completed" [sampleTask] (by decide)⟩

theorem le_foldl_max {A : Type} [LinearOrder A] (l : List A) (a : A) :
    a ≤ l.foldl max a := by
  induction l generalizing a with
  | nil => exact le_refl a
  | cons x xs ih => exact le_trans (le_max_left a x) (ih (max a x))

theorem mem_le_foldl_max {A : Type} [LinearOrder A] (l : List A) (a : A) :
    ∀ x ∈ l, x ≤ l.foldl max a := by
  induction l generalizing a with
  | nil => intro x hx; cases hx
  | cons y ys ih =>
      intro x hx
      rcases List.mem_cons.1 hx with rfl | h
      · exact le_trans (le_max_right a x) (le_foldl_max ys (max a x))
      · exact ih (max a y) x h

theorem foldl_max_mem {A : Type} [LinearOrder A] (l : List A) (a : A) :
    l.foldl max a = a ∨ l.foldl max a ∈ l := by
  induction l generalizing a with
  | nil => exact Or.inl rfl
  | cons y ys ih =>
      rcases ih (max a y) with h | h
      · rcases max_choice a y with hm | hm
        · exact Or.inl (by rw [List.foldl_cons, h, hm])
        · exact Or.inr (by rw [List.foldl_cons, h, hm]; exact List.mem_cons_self y ys)
      · exact Or.inr (List.mem_cons_of_mem y h)

/-- Claim C5: Adding a task appends one row carrying the computed id, and on
a store whose records all have digit ids that id is `max(existing ids) + 1`
when the store is non-empty (strictly above every existing id and exactly
one above some existing id) and `1` when the store is empty; likewise
`TaskManagerTools.add_task` assigns `df['task_id'].max() + 1` on a
non-empty frame and `1` on an empty one. -/
theorem add_task_id_assignment (rows : List Task)
    (title description category : String) (priority : Nat)
    (created_date : String) (due_date : Date) (time_block : String)
    (ids : List Int)
    (hdigits : ∀ t ∈ rows, pyIsDigit t.task_id = true) :
    ((add_task rows title description category priority created_date due_date
        time_block).map Task.task_id =
      rows.map Task.task_id ++ [toString (next_id rows)]) ∧
    (rows = [] → next_id rows = 1) ∧
    (rows ≠ [] →
      (∀ t ∈ rows, strToNat t.task_id < next_id rows) ∧
      (∃ t ∈ rows, next_id rows = strToNat t.task_id + 1)) ∧
    (ids = [] → tm_next_id ids = 1) ∧
    (ids ≠ [] →
      (∀ i ∈ ids, i < tm_next_id ids) ∧
      (∃ i ∈ ids, tm_next_id ids = i + 1)) := by
  refine ⟨by simp [add_task], ?_, ?_, ?_, ?_⟩
  · rintro rfl; rfl
  · intro hne
    rcases rows with _ | ⟨r0, rest⟩
    · exact absurd rfl hne
    have hfilter : (r0 :: rest).filter (fun t => pyIsDigit t.task_id) =
        r0 :: rest := List.filter_eq_self.mpr hdigits
    have hids : ((r0 :: rest).filter (fun t => pyIsDigit t.task_id)).map
        (fun t => strToNat t.task_id) =
        (r0 :: rest).map (fun t => strToNat t.task_id) := by rw [hfilter]
    have hform : next_id (r0 :: rest) =
        ((r0 :: rest).map (fun t => strToNat t.task_id)).foldl max 0 + 1 := by
      simp only [next_id, hids, List.isEmpty_cons, List.map_cons]
      rfl
    constructor
    · intro t ht
      rw [hform]
      have := mem_le_foldl_max ((r0 :: rest).map fun t => strToNat t.task_id) 0
        (strToNat t.task_id) (List.mem_map_of_mem _ ht)
      omega
    · rcases foldl_max_mem ((r0 :: rest).map fun t => strToNat t.task_id) 0
        with h0 | hmem
      · refine ⟨r0, List.mem_cons_self r0 rest, ?_⟩
        have hub := mem_le_foldl_max ((r0 :: rest).map fun t => strToNat t.task_id)
          0 (strToNat r0.task_id) (List.mem_map_of_mem _ (List.mem_cons_self r0 rest))
        rw [hform]
        omega
      · obtain ⟨t, ht, htid⟩ := List.mem_map.1 hmem
        exact ⟨t, ht, by rw [hform, htid]⟩
  · rintro rfl; rfl
  · intro hne
    rcases ids with _ | ⟨i0, is⟩
    · exact absurd rfl hne
    have hform : tm_next_id (i0 :: is) = (i0 :: is).foldl max i0 + 1 := rfl
    constructor
    · intro i hi
      have := mem_le_foldl_max (i0 :: is) i0 i hi
      rw [hform]; omega
    · rcases foldl_max_mem (i0 :: is) i0 with h0 | hmem
      · exact ⟨i0, List.mem_cons_self i0 is, by rw [hform, h0]⟩
      · obtain ⟨i, hi⟩ := Exists.intro (((i0 :: is).foldl max i0)) hmem
        exact ⟨(i0 :: is).foldl max i0, hmem, by rw [hform]⟩

/-- Witness for C5: store `[task 5]` (all ids digits, non-empty) gets next
id `6 = 5 + 1`; the integer frame `[3, 7, 2]` gets `8 = 7 + 1`. -/
theorem add_task_id_assignment_witness :
    (∀ t ∈ [sampleTask], pyIsDigit t.task_id = true) ∧
    (∀ t ∈ [sampleTask], strToNat t.task_id < next_id [sampleTask]) ∧
    (∃ t ∈ [sampleTask], next_id [sampleTask] = strToNat t.task_id + 1) ∧
    (∀ i ∈ ([3, 7, 2] : List Int), i < tm_next_id [3, 7, 2]) ∧
    (∃ i ∈ ([3, 7, 2] : List Int), tm_next_id [3, 7, 2] = i + 1) := by
  have h := add_task_id_assignment [sampleTask] "a" "b" "c" 1 "2024-01-01"
    ⟨2024, 1, 2⟩ "" [3, 7, 2] (by decide)
  have h1 := h.2.2.1 (by simp)
  have h2 := h.2.2.2.2 (by simp)
  exact ⟨by decide, h1.1, h1.2, h2.1, h2.2⟩

/-- Claim C10: The id computation of `add_task` ignores every row whose
`task_id` is not a digit string (so `int(...)` is only ever applied to
digit strings), and on a non-empty store none of whose rows has a digit
`task_id` the appended task receives id `1`. -/
theorem next_id_skips_nondigit (rows : List Task)
    (title description category : String) (priority : Nat)
    (created_date : String) (due_date : Date) (time_block : String) :
    next_id rows = next_id (rows.filter fun t => pyIsDigit t.task_id) ∧
    ((∀ t ∈ rows, pyIsDigit t.task_id = false) →
      next_id rows = 1 ∧
      (add_task rows title description category priority created_date due_date
          time_block).map Task.task_id = rows.map Task.task_id ++ ["1"]) := by
  have hidem : (rows.filter fun t => pyIsDigit t.task_id).filter
      (fun t => pyIsDigit t.task_id) = rows.filter fun t => pyIsDigit t.task_id :=
    List.filter_eq_self.mpr fun a ha => (List.mem_filter.1 ha).2
  have heq : next_id rows = next_id (rows.filter fun t => pyIsDigit t.task_id) := by
    by_cases h0 : rows = []
    · subst h0; rfl
    by_cases h1 : rows.filter (fun t => pyIsDigit t.task_id) = []
    · rw [h1]
      have hrne : rows.isEmpty = false := by
        simpa using h0
      simp [next_id, hrne, h1]
    · have hrne : rows.isEmpty = false := by
        simpa using h0
      have hfne : (rows.filter fun t => pyIsDigit t.task_id).isEmpty = false := by
        simpa using h1
      simp only [next_id]
      rw [hidem]
      simp [hrne, hfne]
  refine ⟨heq, fun hnon => ?_⟩
  have hnil : rows.filter (fun t => pyIsDigit t.task_id) = [] :=
    List.filter_eq_nil_iff.mpr fun a ha => by simp [hnon a ha]
  have h1 : next_id rows = 1 := by rw [heq, hnil]; rfl
  exact ⟨h1, by simp [add_task, h1]; rfl⟩

/-- Witness for C10: a non-empty store whose only row has `task_id`
`"abc"` yields next id `1`. -/
theorem next_id_skips_nondigit_witness :
    (∀ t ∈ [{ sampleTask with task_id := "abc" }], pyIsDigit t.task_id = false) ∧
    next_id [{ sampleTask with task_id := "abc" }] = 1 := by
  have h := (next_id_skips_nondigit [{ sampleTask with task_id := "abc" }]
    "a" "b" "c" 1 "2024-01-01" ⟨2024, 1, 2⟩ "").2 (by decide)
  exact ⟨by decide, h.1⟩

/-- The number of progress rows recorded for a given date. -/
def countDate (d : Date) (log : List ProgressEntry) : Nat :=
  (log.filter fun e => decide (e.date = d)).length

/-- Claim C7: One invocation of the progress aggregation appends exactly one
row, and it is not idempotent: two invocations for the same day leave two
rows carrying that date in the progress log. -/
theorem progress_log_appends_and_duplicates (today : Date)
    (rows1 rows2 : List Task) (m1 m2 : Nat) (log : List ProgressEntry) :
    (update_progress_log today rows1 m1 log).length = log.length + 1 ∧
    countDate today (update_progress_log today rows2 m2
        (update_progress_log today rows1 m1 log)) = countDate today log + 2 := by
  constructor
  · simp [update_progress_log]
  · simp [update_progress_log, countDate, List.filter_append]

/-- Concrete store for the progress-aggregation scenarios: one completed
and two pending tasks due 2024-01-02. -/
def doneTask : Task :=
  ⟨"1", "a", "", "w", "1", "completed", "2024-01-01", ⟨2024, 1, 2⟩, 0, ""⟩

def pendTaskA : Task :=
  ⟨"2", "b", "", "w", "1", "pending", "2024-01-01", ⟨2024, 1, 2⟩, 0, ""⟩

def pendTaskB : Task :=
  ⟨"3", "c", "", "w", "1", "pending", "2024-01-01", ⟨2024, 1, 2⟩, 0, ""⟩

theorem roundHalfEven_bounds (x : ℚ) :
    ⌊x⌋ ≤ roundHalfEven x ∧ roundHalfEven x ≤ ⌈x⌉ := by
  have hfr : Int.fract x = x - ⌊x⌋ := rfl
  unfold roundHalfEven
  split_ifs with h1 h2 h3
  · exact ⟨le_refl _, Int.floor_le_ceil x⟩
  · refine ⟨by omega, ?_⟩
    have hpos : (⌊x⌋ : ℚ) < x := by
      have : (0 : ℚ) < Int.fract x := lt_trans (by norm_num) h2
      rw [hfr] at this
      linarith
    have := Int.lt_ceil.2 hpos
    omega
  · exact ⟨le_refl _, Int.floor_le_ceil x⟩
  · refine ⟨by omega, ?_⟩
    have heq : Int.fract x = 1 / 2 := le_antisymm (not_lt.1 h2) (not_lt.1 h1)
    have hpos : (⌊x⌋ : ℚ) < x := by
      have : (0 : ℚ) < Int.fract x := by rw [heq]; norm_num
      rw [hfr] at this
      linarith
    have := Int.lt_ceil.2 hpos
    omega

theorem pythonRound2_bounds {x : ℚ} (h0 : 0 ≤ x) (h100 : x ≤ 100) :
    0 ≤ pythonRound2 x ∧ pythonRound2 x ≤ 100 := by
  obtain ⟨hl, hu⟩ := roundHalfEven_bounds (x * 100)
  have hfl : (0 : ℤ) ≤ ⌊x * 100⌋ := Int.floor_nonneg.2 (by positivity)
  have hcu : ⌈x * 100⌉ ≤ 10000 := Int.ceil_le.2 (by push_cast; nlinarith)
  constructor
  · apply div_nonneg _ (by norm_num : (0 : ℚ) ≤ 100)
    exact_mod_cast le_trans hfl hl
  · unfold pythonRound2
    rw [div_le_iff₀ (by norm_num : (0 : ℚ) < 100)]
    have : roundHalfEven (x * 100) ≤ 10000 := le_trans hu hcu
    calc (roundHalfEven (x * 100) : ℚ) ≤ 10000 := by exact_mod_cast this
    _ = 100 * 100 := by norm_num

theorem productivity_score_bounds (c p : Nat) :
    0 ≤ productivity_score c p ∧ productivity_score c p ≤ 100 := by
  unfold productivity_score
  split_ifs with h
  · have hden : (0 : ℚ) < (c : ℚ) + (p : ℚ) := by
      have : 0 < c + p := h
      exact_mod_cast this
    apply pythonRound2_bounds
    · positivity
    · have hle : (c : ℚ) / ((c : ℚ) + (p : ℚ)) ≤ 1 := by
        rw [div_le_one hden]
        have : c ≤ c + p := Nat.le_add_right c p
        exact_mod_cast this
      nlinarith
  · norm_num

theorem getLastD_append_single {A : Type} (l : List A) (e d : A) :
    (l ++ [e]).getLastD d = e := by
  rw [List.getLastD_eq_getLast?, List.getLast?_concat]
  rfl

theorem countStatusToday_zero (s : String) (today : Date) (rows : List Task)
    (h : ∀ t ∈ rows, t.due_date ≠ today) :
    countStatusToday s today rows = 0 := by
  unfold countStatusToday
  rw [List.length_eq_zero]
  exact List.filter_eq_nil_iff.mpr fun t ht => by simp [h t ht]

/-- Claim C4, amended: The appended progress row's productivity score equals
`completed / (completed + pending) * 100` rounded to two decimal places
when `completed + pending > 0`, and `0` when the denominator is `0`; for
every input it lies in `[0, 100]`, and it is `0` when no task in the store
is due today. -/
theorem progress_entry_score_bounds (today : Date) (rows : List Task)
    (m : Nat) (log : List ProgressEntry) :
    0 ≤ ((update_progress_log today rows m log).getLastD
        blankEntry).productivity_score ∧
    ((update_progress_log today rows m log).getLastD
        blankEntry).productivity_score ≤ 100 ∧
    (countStatusToday "completed" today rows +
        countStatusToday "pending" today rows = 0 →
      ((update_progress_log today rows m log).getLastD
          blankEntry).productivity_score = 0) ∧
    ((∀ t ∈ rows, t.due_date ≠ today) →
      ((update_progress_log today rows m log).getLastD
          blankEntry).productivity_score = 0) ∧
    (0 < countStatusToday "completed" today rows +
        countStatusToday "pending" today rows →
      ((update_progress_log today rows m log).getLastD
          blankEntry).productivity_score =
        pythonRound2 ((countStatusToday "completed" today rows : ℚ) /
          ((countStatusToday "completed" today rows : ℚ) +
            (countStatusToday "pending" today rows : ℚ)) * 100)) := by
  have hlast : (update_progress_log today rows m log).getLastD blankEntry =
      ⟨today, countStatusToday "completed" today rows,
        countStatusToday "pending" today rows, m,
        productivity_score (countStatusToday "completed" today rows)
          (countStatusToday "pending" today rows), ""⟩ := by
    unfold update_progress_log
    exact getLastD_append_single log _ blankEntry
  rw [hlast]
  refine ⟨(productivity_score_bounds _ _).1, (productivity_score_bounds _ _).2,
    fun h => ?_, fun h => ?_, fun h => ?_⟩
  · simp [productivity_score, h]
  · have hc := countStatusToday_zero "completed" today rows h
    have hp := countStatusToday_zero "pending" today rows h
    simp [productivity_score, hc, hp]
  · simp [productivity_score, h]

/-- Witness for C4 (amended): on the concrete store of one completed and
two pending tasks due 2024-01-02 the bounds hold, and an empty store on
2024-01-03 (no task due that day) scores `0`. -/
theorem progress_entry_score_bounds_witness :
    (0 ≤ ((update_progress_log ⟨2024, 1, 2⟩ [doneTask, pendTaskA, pendTaskB] 0
        []).getLastD blankEntry).productivity_score) ∧
    (((update_progress_log ⟨2024, 1, 2⟩ [doneTask, pendTaskA, pendTaskB] 0
        []).getLastD blankEntry).productivity_score ≤ 100) ∧
    (((update_progress_log ⟨2024, 1, 3⟩ [] 0 []).getLastD
        blankEntry).productivity_score = 0) := by
  have h1 := progress_entry_score_bounds ⟨2024, 1, 2⟩
    [doneTask, pendTaskA, pendTaskB] 0 []
  have h2 := progress_entry_score_bounds ⟨2024, 1, 3⟩ [] 0 []
  exact ⟨h1.1, h1.2.1, h2.2.2.2.1 (by simp)⟩

/-- Claim C4, counterexample: The claim's exact equality
`score = completed / (completed + pending) * 100` fails on the code: with
one completed and two pending tasks due today the recorded score is the
rounded `33.33`, not `100 / 3`. -/
theorem progress_score_rounding_counterexample :
    countStatusToday "completed" ⟨2024, 1, 2⟩
      [doneTask, pendTaskA, pendTaskB] = 1 ∧
    countStatusToday "pending" ⟨2024, 1, 2⟩
      [doneTask, pendTaskA, pendTaskB] = 2 ∧
    ((update_progress_log ⟨2024, 1, 2⟩ [doneTask, pendTaskA, pendTaskB] 0
        []).getLastD blankEntry).productivity_score = 3333 / 100 ∧
    ((update_progress_log ⟨2024, 1, 2⟩ [doneTask, pendTaskA, pendTaskB] 0
        []).getLastD blankEntry).productivity_score ≠
      (1 : ℚ) / (1 + 2) * 100 := by
  have hc : countStatusToday "completed" ⟨2024, 1, 2⟩
      [doneTask, pendTaskA, pendTaskB] = 1 := by decide
  have hp : countStatusToday "pending" ⟨2024, 1, 2⟩
      [doneTask, pendTaskA, pendTaskB] = 2 := by decide
  have hlast : ((update_progress_log ⟨2024, 1, 2⟩
      [doneTask, pendTaskA, pendTaskB] 0 []).getLastD
        blankEntry).productivity_score = productivity_score 1 2 := by
    unfold update_progress_log
    rw [getLastD_append_single]
    rw [hc, hp]
  have hval : productivity_score 1 2 = 3333 / 100 := by
    simp only [productivity_score, pythonRound2, roundHalfEven, Int.fract]
    norm_num
  refine ⟨hc, hp, by rw [hlast, hval], by rw [hlast, hval]; norm_num⟩

theorem processLine_congr (exec1 exec2 : String → String) (q : String)
    (h : exec1 q = exec2 q) :
    processLine exec1 q = processLine exec2 q := by
  funext headers line
  simp [processLine, h]

/-- Claim C8: In `get_today_schedule` the per-block fetch executes the outer
schedule query, not the `tasks_query` the code builds from the block's
task ids: every query string a run hands to the engine is
`schedule_query today_name`, and two engines that agree on that single
string — however much they differ on any `tasks_query` — produce identical
results. -/
theorem schedule_tasks_use_outer_query (today_name : String)
    (exec1 exec2 : String → String)
    (h : exec1 (schedule_query today_name) = exec2 (schedule_query today_name)) :
    get_today_schedule exec1 today_name = get_today_schedule exec2 today_name ∧
    ∀ q ∈ (get_today_schedule exec1 today_name).2,
      q = schedule_query today_name := by
  have hp := processLine_congr exec1 exec2 (schedule_query today_name) h
  constructor
  · simp only [get_today_schedule, h, hp]
  · intro q hq
    simp only [get_today_schedule] at hq
    rcases hL : splitLines (exec1 (schedule_query today_name)) with _ | ⟨hd, rest⟩
    · rw [hL] at hq
      simpa using hq
    · rw [hL] at hq
      by_cases hr : rest.isEmpty
      · simp [hr] at hq
        exact hq
      · simp only [hr, if_false, Bool.false_eq_true] at hq
        rcases List.mem_cons.1 hq with rfl | hq2
        · rfl
        · obtain ⟨l, hl, hql⟩ := List.mem_flatten.1 hq2
          obtain ⟨pr, hpr, rfl⟩ := List.mem_map.1 hl
          obtain ⟨line, hline, rfl⟩ := List.mem_map.1 hpr
          simp only [processLine] at hql
          split at hql
          · simpa using hql
          · simp at hql

/-- An engine that answers every query with one fixed schedule row whose
`task_ids` column is non-empty. -/
def constEngine : String → String :=
  fun _ => "block_id,task_ids\n1,3;4"

/-- The same engine except on the per-block `tasks_query` the code builds
for that row, where it answers differently. -/
def altEngine : String → String :=
  fun q => if q = tasks_query ["3", "4"] then "task_id\n9" else constEngine q

/-- Witness for C8: the two engines differ on the built `tasks_query` yet
agree on the schedule query, and the run's result is identical — the
fetched rows do not depend on `tasks_query`. -/
theorem schedule_tasks_use_outer_query_witness :
    constEngine (schedule_query "Monday") = altEngine (schedule_query "Monday") ∧
    constEngine (tasks_query ["3", "4"]) ≠ altEngine (tasks_query ["3", "4"]) ∧
    get_today_schedule constEngine "Monday" =
      get_today_schedule altEngine "Monday" := by
  refine ⟨by decide, by decide, ?_⟩
  exact (schedule_tasks_use_outer_query "Monday" constEngine altEngine
    (by decide)).1

end PersonalPA
